import Mathlib

/-!
Verification development for the stream_console two-party realtime
conversation orchestrator.  The definitions below are shallow embeddings of
the JavaScript source files:

* `Orch`  — `src/server/orchestrator.js` (current authoritative variant):
  the per-session message handler, `start`, `_sendAudio`, and the
  `initOrchestrator` lazy singleton.
* `Q`     — `src/unnamed/part_002`: the variant with per-destination
  promise-chained forwarding queues and chunk-length pacing delays.
* `Rec`   — `src/server/orchestrator_backup_0507.js`: the recording
  assembler (`_writeConversationFiles` / `build`) and the 20 ms bulk
  seed framing (`_streamTo`).
* `Draft` — `src/unnamed/part_000` and `part_001`: the draft variants that
  write live solo tracks padded with same-length silence.

Machine integers are modelled as `Nat` (byte counts, byte values) and exact
rationals `ℚ` (times in milliseconds, JS floating-point arithmetic on the
quantities in play stays well inside the exactly-representable range).
-/

namespace StreamConsole

/-- The two conversation parties, `'A'` and `'B'` in the source. -/
inductive Party : Type
  | A : Party
  | B : Party
deriving DecidableEq, Repr

/-- Source: `const other = label === 'A' ? 'B' : 'A'`. -/
def Party.opp : Party → Party
  | .A => .B
  | .B => .A

/-- A per-party record, modelling the JS objects keyed by `'A'`/`'B'`
(`this.sessions`, `this.wavWriters`, `this.sessionIds`, ...). -/
structure PMap (α : Type) : Type where
  pa : α
  pb : α
deriving DecidableEq, Repr

def PMap.get {α : Type} (m : PMap α) : Party → α
  | .A => m.pa
  | .B => m.pb

def PMap.set {α : Type} (m : PMap α) : Party → α → PMap α
  | .A, v => { m with pa := v }
  | .B, v => { m with pb := v }

def PMap.const {α : Type} (v : α) : PMap α := ⟨v, v⟩

/-- Decoded audio bytes (`Buffer.from(b64, 'base64')`). -/
abbrev Bytes := List Nat

/-- Successfully parsed inbound protocol messages, classified by the
`msg.type` discriminant exactly as the dispatchers test it.  An audio payload
carries the decoded bytes of `msg.data ?? msg.delta` (base64 decoding is a
bijection between the wire string and the bytes, so the model works directly
with the decoded bytes). -/
inductive Msg : Type
  | sessionCreated (sid : String)
  | audioPayload (bytes : Bytes)
  | itemCreated (isUserItem : Bool)
  | textDelta (s : String)
  | textDone (s : String)
  | otherType (ty : String)
deriving DecidableEq, Repr

/-- The `msg.type` string logged by the catch-all branches. -/
def Msg.typeName : Msg → String
  | .sessionCreated _ => "session.created"
  | .audioPayload _ => "response.audio.delta"
  | .itemCreated _ => "conversation.item.created"
  | .textDelta _ => "response.text.delta"
  | .textDone _ => "response.text.done"
  | .otherType ty => ty

/-- One `this.emit('log', { session: label, event: ... })` record. -/
structure LogEvent : Type where
  session : Option Party
  event : String
deriving DecidableEq, Repr

end StreamConsole

namespace StreamConsole.Orch

/-!  Model of `src/server/orchestrator.js` (class `ArenaOrchestrator`). -/

/-- Observable per-orchestrator state of `orchestrator.js`:
`sessionsOpen` — whether `this.sessions[label]` holds an OPEN WebSocket;
`sessionIds` — `this.sessionIds[label]`;
`hasWriter` — whether `this.wavWriters[label]` has been created;
`wavWritten` — the chunks written to `this.wavWriters[label]`, in order;
`sentIn` — the audio buffers sent into session `label` via
`input_audio_buffer.append`, in order;
`ctlSent` — the non-audio control messages sent on session `label`
(`session.update`, `response.create`), by type, in order;
`logs` — the `'log'` events emitted; `errors` — count of `'error'` emits. -/
structure St : Type where
  sessionsOpen : PMap Bool
  sessionIds : PMap (Option String)
  hasWriter : PMap Bool
  wavWritten : PMap (List Bytes)
  sentIn : PMap (List Bytes)
  ctlSent : PMap (List String)
  logs : List LogEvent
  errors : Nat
deriving DecidableEq, Repr

/-- State of a fresh `new ArenaOrchestrator(apiKey)`: empty `sessions`,
`wavWriters`, `sessionIds`, nothing sent or logged. -/
def initialSt : St :=
  { sessionsOpen := PMap.const false
    sessionIds := PMap.const none
    hasWriter := PMap.const false
    wavWritten := PMap.const []
    sentIn := PMap.const []
    ctlSent := PMap.const []
    logs := []
    errors := 0 }

/-- The `ws.on('message', raw => ...)` handler of `orchestrator.js`
(lines 52–112) for party `label`.  `none` models a raw frame on which
`JSON.parse` throws: the catch branch emits an `'error'` event and returns.
The branches mirror the source order: `session.created`, audio payload
(`response.audio_chunk` / `response.audio.delta`), guarded
`conversation.item.created`, catch-all log. -/
def handleMessage (label : Party) (raw : Option Msg) (st : St) : St :=
  match raw with
  | none => { st with errors := st.errors + 1 }
  | some msg =>
    match msg with
    | .sessionCreated sid =>
      { st with
        sessionIds := st.sessionIds.set label (some sid)
        logs := st.logs ++ [⟨some label, "session.created"⟩]
        ctlSent := st.ctlSent.set label (st.ctlSent.get label ++ ["session.update"])
        hasWriter := st.hasWriter.set label true
        sessionsOpen := st.sessionsOpen.set label true }
    | .audioPayload bytes =>
      let st1 :=
        { st with wavWritten := st.wavWritten.set label (st.wavWritten.get label ++ [bytes]) }
      let st2 :=
        if st1.sessionsOpen.get label.opp then
          { st1 with sentIn := st1.sentIn.set label.opp (st1.sentIn.get label.opp ++ [bytes]) }
        else st1
      { st2 with logs := st2.logs ++ [⟨some label, "audio_chunk"⟩] }
    | .itemCreated isUserItem =>
      if isUserItem then
        { st with
          logs := st.logs ++ [⟨some label, "user_committed"⟩, ⟨some label, "response.create.sent"⟩]
          ctlSent := st.ctlSent.set label (st.ctlSent.get label ++ ["response.create"]) }
      else st
    | m => { st with logs := st.logs ++ [⟨some label, m.typeName⟩] }

/-- Process a sequence of (party, raw message) arrivals in order; message
handling per party is synchronous, so a trace is a single interleaved list. -/
def runMsgs (evs : List (Party × Option Msg)) (st : St) : St :=
  evs.foldl (fun s e => handleMessage e.1 e.2 s) st

/-- Model of `_sendAudio(label, buffer)` (lines 126–137): sends the buffer into the
session if it is OPEN, else emits a `'Session not ready'` error. -/
def sendAudio (label : Party) (buffer : Bytes) (st : St) : St :=
  if st.sessionsOpen.get label then
    { st with
      sentIn := st.sentIn.set label (st.sentIn.get label ++ [buffer])
      logs := st.logs ++ [⟨some label, "seed_sent"⟩] }
  else
    { st with errors := st.errors + 1 }

/-- Model of `start()` (lines 18–22).  The source performs no already-active check of
any kind: it unconditionally runs `_createSession('A')` and
`_createSession('B')` — each of which resolves when the corresponding
`session.created` message arrives and overwrites the stored session handle,
writer and session id — and then sends the seed buffer into A.
`sidA`/`sidB` are the ids the service assigns to the two new sessions. -/
def start (st : St) (sidA sidB : String) (seed : Bytes) : St :=
  let st1 := handleMessage .A (some (.sessionCreated sidA)) st
  let st2 := handleMessage .B (some (.sessionCreated sidB)) st1
  sendAudio .A seed st2

/-- The `ArenaOrchestrator` instance: constructor arguments plus state. -/
structure Arena : Type where
  apiKey : String
  modelName : String
  st : St
deriving DecidableEq, Repr

/-- Model of `new ArenaOrchestrator(apiKey)` with the default model argument. -/
def mkArena (apiKey : String) : Arena :=
  { apiKey := apiKey, modelName := "gpt-4o-realtime-preview", st := initialSt }

/-- JS truthiness of `process.env.OPENAI_API_KEY` as tested by
`if (!apiKey) throw ...`: `undefined` (here `none`) and the empty string are
falsy, every other string is truthy. -/
def keyTruthy : Option String → Bool
  | none => false
  | some s => !s.isEmpty

/-- Model of `initOrchestrator()` (lines 148–156) as a function of the environment
variable and the module-level `orchestrator` slot; returns the instance
handed to the caller together with the new slot contents, or the thrown
error message. -/
def initOrchestrator (env : Option String) :
    Option Arena → Except String (Arena × Option Arena)
  | some inst => .ok (inst, some inst)
  | none =>
    match env with
    | none => .error "OPENAI_API_KEY not set in environment"
    | some k =>
      if k.isEmpty then .error "OPENAI_API_KEY not set in environment"
      else
        let inst := mkArena k
        .ok (inst, some inst)

/-- Whether a call to `initOrchestrator` threw. -/
def threw {α : Type} : Except String α → Bool
  | .error _ => true
  | .ok _ => false

end StreamConsole.Orch

namespace StreamConsole.Q

/-!  Model of `src/unnamed/part_002` (the variant with per-destination
promise-chained forwarding queues and pacing delays). -/

/-- Observable state of the `part_002` orchestrator.  `queue` is the
per-destination forwarding queue: the chunks appended to
`this.forwardQueues[other]` via `.then(...)`, in append order. -/
structure St : Type where
  sessionsOpen : PMap Bool
  sessionIds : PMap (Option String)
  hasWriter : PMap Bool
  wavWritten : PMap (List Bytes)
  queue : PMap (List Bytes)
  ctlSent : PMap (List String)
  logs : List LogEvent
  errors : Nat
deriving DecidableEq, Repr

/-- The `ws.on('message', ...)` handler of `part_002` (lines 63–122) for
party `label`.  `none` is a raw frame on which `JSON.parse` throws (lines
65–66): emit `'error'`, return.  Branches in source order:
`session.created`; audio payload, which records the chunk to the party's wav
writer and, when the other session is OPEN, appends the chunk to the other
party's forwarding queue (lines 96–118); catch-all log. -/
def dispatch (label : Party) (raw : Option Msg) (st : St) : St :=
  match raw with
  | none => { st with errors := st.errors + 1 }
  | some msg =>
    match msg with
    | .sessionCreated sid =>
      { st with
        sessionIds := st.sessionIds.set label (some sid)
        logs := st.logs ++ [⟨some label, "session.created"⟩, ⟨some label, "session.update.sent"⟩]
        ctlSent := st.ctlSent.set label (st.ctlSent.get label ++ ["session.update"])
        hasWriter := st.hasWriter.set label true
        sessionsOpen := st.sessionsOpen.set label true }
    | .audioPayload bytes =>
      let st1 : St :=
        { st with
          wavWritten := st.wavWritten.set label (st.wavWritten.get label ++ [bytes])
          logs := st.logs ++ [⟨some label, "audio_chunk"⟩] }
      if st1.sessionsOpen.get label.opp then
        { st1 with queue := st1.queue.set label.opp (st1.queue.get label.opp ++ [bytes]) }
      else st1
    | m => { st with logs := st.logs ++ [⟨some label, m.typeName⟩] }

/-- Source: `const delayMs = (chunk.length / 48000) * 1000` (line 113): the pacing
delay, in milliseconds, attached to a forwarded chunk of `len` bytes. -/
def pacingDelayMs (len : Nat) : ℚ := ((len : ℚ) / 48000) * 1000

/-- Delivery schedule of one destination's promise-chained forwarding queue.
Each queue entry is `(arrival, len)`: the wall-clock time (ms) at which the
chunk was appended to the chain and its byte length.  `free` is the time at
which the previous link's promise resolves (initially the already-resolved
`Promise.resolve()`).  A link's callback runs — i.e. its chunk is sent —
once both its predecessor has resolved and the chunk has been enqueued, and
the link resolves `pacingDelayMs len` after its send (`setTimeout`). -/
def sched : List (ℚ × Nat) → ℚ → List ℚ
  | [], _ => []
  | item :: rest, free =>
    let s := max item.1 free
    s :: sched rest (s + pacingDelayMs item.2)

end StreamConsole.Q

namespace StreamConsole.Rec

/-!  Model of `src/server/orchestrator_backup_0507.js`: the recording
assembler `_writeConversationFiles` (lines 143–167) and the bulk seed
streaming `_streamTo` (lines 126–141, identical in
`orchestrator_backup_0506_2.js` lines 133–149). -/

/-- Source: `const sampleRate = 24000, bitDepth = 16, channels = 1` (line 144). -/
def sampleRate : Nat := 24000

def bitDepth : Nat := 16

/-- Source: `const bytesPerMs = (sampleRate * (bitDepth/8)) / 1000` (line 145):
48 bytes of PCM16 mono per millisecond. -/
def bytesPerMs : ℚ := ((sampleRate : ℚ) * ((bitDepth : ℚ) / 8)) / 1000

/-- One element of `this.events[label]`: `{ t, data }` with `t` the
millisecond offset `Date.now() - this.startTime` (line 100). -/
structure Ev : Type where
  t : Int
  data : Bytes
deriving DecidableEq, Repr

/-- Model of `Math.round`: round half toward positive infinity. -/
def jsRound (x : ℚ) : Int := Int.floor (x + 1 / 2)

/-- Model of `Buffer.alloc(n)`: `n` zero bytes of silence. -/
def silence (n : Nat) : Bytes := List.replicate n 0

/-- Insert an event after every already-placed event with offset `≤ e.t`. -/
def insertEv (e : Ev) : List Ev → List Ev
  | [] => [e]
  | x :: xs => if x.t ≤ e.t then x :: insertEv e xs else e :: x :: xs

/-- Model of `events.sort((a,b) => a.t - b.t)` (line 152): a stable sort by offset
ascending (JS `Array.prototype.sort` is stable), modelled as left-to-right
insertion after equal keys. -/
def sortEvents (evs : List Ev) : List Ev :=
  evs.foldl (fun acc e => insertEv e acc) []

/-- The gap-filling walk of `build` (lines 151–158): with write cursor
`cursor` (ms), for each event in order compute `gap = t - cursor`; if the
gap is positive write `Math.round(gap * bytesPerMs)` bytes of silence; write
the event's audio; set `cursor = t + data.length / bytesPerMs`.  The result
is the byte content written to the WAV writer. -/
def buildWalk : List Ev → ℚ → Bytes
  | [], _ => []
  | e :: es, cursor =>
    let gap : ℚ := (e.t : ℚ) - cursor
    (if 0 < gap then silence (jsRound (gap * bytesPerMs)).toNat else []) ++
      e.data ++ buildWalk es ((e.t : ℚ) + (e.data.length : ℚ) / bytesPerMs)

/-- Model of `build(events, name)` (lines 147–161): sort the events by offset, then
run the gap-filling walk from cursor 0.  On an empty event list the walk
writes nothing and the writer is simply ended, yielding a header-only
(zero-data) WAV artifact. -/
def build (evs : List Ev) : Bytes :=
  buildWalk (sortEvents evs) 0

/-- The merged conversation track (lines 165–166):
`[...this.events.A, ...this.events.B].sort((a,b) => a.t - b.t)`, then the
same `build` (which re-sorts, a no-op on the pre-sorted list). -/
def mergedEvents (evsA evsB : List Ev) : List Ev :=
  sortEvents (evsA ++ evsB)

/-- Source: `const frameSize = 960` (line 132) of `_streamTo`: bytes per seed
frame. -/
def frameSize : Nat := 960

/-- The framing loop of `_streamTo` (lines 133–140): successive
`buffer.slice(i, i + frameSize)` slices, in buffer order. -/
def seedFrames (b : Bytes) : List Bytes :=
  if h : b = [] then []
  else b.take frameSize :: seedFrames (b.drop frameSize)
termination_by b.length
decreasing_by
  simp only [List.length_drop]
  exact Nat.sub_lt (List.length_pos.mpr h) (by norm_num [frameSize])

/-- Wall-clock send times of the `_streamTo` loop: each iteration sends its
frame, then awaits `setTimeout(r, 20)` before the next (line 139). -/
def streamSched : List Bytes → ℚ → List ℚ
  | [], _ => []
  | _ :: rest, now => now :: streamSched rest (now + 20)

end StreamConsole.Rec

namespace StreamConsole.Draft

/-!  Model of `src/unnamed/part_000` (message handler, lines 175–258; the
audio branch of `part_001`, lines 212–225, is behaviourally identical). -/

/-- Observable state of the draft orchestrator.  `solo` holds the byte
chunks written live to each party's solo wav writer, `comb` those written to
the combined writer, `transcripts` the accumulated per-party text. -/
structure St : Type where
  sessionsOpen : PMap Bool
  sessionIds : PMap (Option String)
  hasWriter : PMap Bool
  solo : PMap (List Bytes)
  comb : List Bytes
  transcripts : PMap String
  sentIn : PMap (List Bytes)
  ctlSent : PMap (List String)
  logs : List LogEvent
  errors : Nat
deriving DecidableEq, Repr

/-- State after `start()` has created both writers and the transcripts map:
everything empty. -/
def initSt : St :=
  { sessionsOpen := PMap.const false
    sessionIds := PMap.const none
    hasWriter := PMap.const false
    solo := PMap.const []
    comb := []
    transcripts := PMap.const ""
    sentIn := PMap.const []
    ctlSent := PMap.const []
    logs := []
    errors := 0 }

/-- The `ws.on('message', ...)` handler of `part_000` for party `label`.
`none` is an undecodable frame: emit `'error'`, return (lines 176–181).
Branches in source order: text delta / text done appended to the party's
transcript (184–191); `session.created` (194–219); the audio branch
(222–246), which writes the chunk to our solo writer, a zero-filled buffer
of the same byte length to the other party's solo writer, the chunk to the
combined writer, and forwards to the other session when it is OPEN; guarded
`conversation.item.created` (249–254); catch-all log. -/
def dHandle (label : Party) (raw : Option Msg) (st : St) : St :=
  match raw with
  | none => { st with errors := st.errors + 1 }
  | some msg =>
    match msg with
    | .textDelta s =>
      { st with transcripts := st.transcripts.set label (st.transcripts.get label ++ s) }
    | .textDone s =>
      { st with transcripts := st.transcripts.set label (st.transcripts.get label ++ s) }
    | .sessionCreated sid =>
      { st with
        sessionIds := st.sessionIds.set label (some sid)
        logs := st.logs ++ [⟨some label, "session.created"⟩]
        ctlSent := st.ctlSent.set label (st.ctlSent.get label ++ ["session.update"])
        hasWriter := st.hasWriter.set label true
        sessionsOpen := st.sessionsOpen.set label true }
    | .audioPayload bytes =>
      let sil : Bytes := List.replicate bytes.length 0
      let s1 := st.solo.set label (st.solo.get label ++ [bytes])
      let s2 := s1.set label.opp (s1.get label.opp ++ [sil])
      let st1 := { st with solo := s2, comb := st.comb ++ [bytes] }
      let st2 :=
        if st1.sessionsOpen.get label.opp then
          { st1 with sentIn := st1.sentIn.set label.opp (st1.sentIn.get label.opp ++ [bytes]) }
        else st1
      { st2 with logs := st2.logs ++ [⟨some label, "audio_chunk"⟩] }
    | .itemCreated isUserItem =>
      if isUserItem then
        { st with
          logs := st.logs ++ [⟨some label, "user_committed"⟩, ⟨some label, "response.create.sent"⟩]
          ctlSent := st.ctlSent.set label (st.ctlSent.get label ++ ["response.create"]) }
      else
        { st with logs := st.logs ++ [⟨some label, Msg.typeName (.itemCreated isUserItem)⟩] }
    | m => { st with logs := st.logs ++ [⟨some label, m.typeName⟩] }

/-- Process a sequence of (party, raw message) arrivals in order. -/
def dRun (evs : List (Party × Option Msg)) (st : St) : St :=
  evs.foldl (fun s e => dHandle e.1 e.2 s) st

/-- Total bytes received by a writer: the sum of the written chunk sizes. -/
def totalBytes (writes : List Bytes) : Nat :=
  (writes.map List.length).sum

end StreamConsole.Draft

namespace StreamConsole

theorem Party.opp_ne (x : Party) : x.opp ≠ x := by
  cases x <;> simp [Party.opp]

theorem PMap.get_set_same {α : Type} (m : PMap α) (p : Party) (v : α) :
    (m.set p v).get p = v := by
  cases p <;> simp [PMap.get, PMap.set]

theorem PMap.get_set_other {α : Type} (m : PMap α) (p q : Party) (v : α)
    (h : p ≠ q) : (m.set p v).get q = m.get q := by
  cases p <;> cases q <;> simp_all [PMap.get, PMap.set]

/-- Effect of one audio payload handled for party `x` in `orchestrator.js`
when the other party's session is OPEN: the chunk is appended to `x`'s
recorded writes and to the audio sent into the other session; nothing is
sent into `x`'s own session, and session openness is untouched. -/
theorem Orch.audioStep (x : Party) (c : Bytes) (st : Orch.St)
    (hopen : st.sessionsOpen.get x.opp = true) :
    (Orch.handleMessage x (some (.audioPayload c)) st).wavWritten.get x
        = st.wavWritten.get x ++ [c]
    ∧ (Orch.handleMessage x (some (.audioPayload c)) st).sentIn.get x.opp
        = st.sentIn.get x.opp ++ [c]
    ∧ (Orch.handleMessage x (some (.audioPayload c)) st).sentIn.get x
        = st.sentIn.get x
    ∧ (Orch.handleMessage x (some (.audioPayload c)) st).sessionsOpen
        = st.sessionsOpen := by
  cases x <;>
    simp_all [Orch.handleMessage, Party.opp, PMap.get, PMap.set]

/-- C1.  For every audio payload message (`response.audio_chunk` /
`response.audio.delta`) received on party `x`'s session while the other
party's session is OPEN, the decoded bytes are both recorded for `x`
(written to `x`'s wav writer) and forwarded into the other party's session
exactly once, in receipt order, and never sent back into `x`'s own
session. -/
theorem audio_recorded_and_forwarded_once (x : Party) (cs : List Bytes)
    (st : Orch.St) (hopen : st.sessionsOpen.get x.opp = true) :
    (Orch.runMsgs (cs.map fun c => (x, some (Msg.audioPayload c))) st).wavWritten.get x
        = st.wavWritten.get x ++ cs
    ∧ (Orch.runMsgs (cs.map fun c => (x, some (Msg.audioPayload c))) st).sentIn.get x.opp
        = st.sentIn.get x.opp ++ cs
    ∧ (Orch.runMsgs (cs.map fun c => (x, some (Msg.audioPayload c))) st).sentIn.get x
        = st.sentIn.get x := by
  induction cs generalizing st with
  | nil => simp [Orch.runMsgs]
  | cons c rest ih =>
    have hstep := Orch.audioStep x c st hopen
    have hopen2 :
        (Orch.handleMessage x (some (.audioPayload c)) st).sessionsOpen.get x.opp = true := by
      rw [hstep.2.2.2]; exact hopen
    have ihx := ih (Orch.handleMessage x (some (.audioPayload c)) st) hopen2
    simp only [List.map_cons, Orch.runMsgs, List.foldl_cons] at ihx ⊢
    rw [ihx.1, ihx.2.1, ihx.2.2, hstep.1, hstep.2.1, hstep.2.2.1]
    simp

/-- A state with both sessions OPEN and empty recording/forward state. -/
def Orch.bothOpenSt : Orch.St :=
  { Orch.initialSt with sessionsOpen := PMap.const true }

/-- Witness for C1 at a concrete two-chunk trace arriving at party A. -/
theorem audio_recorded_and_forwarded_once_witness :
    Orch.bothOpenSt.sessionsOpen.get Party.A.opp = true
    ∧ ((Orch.runMsgs ([[1, 2], [3]].map fun c => (Party.A, some (Msg.audioPayload c)))
          Orch.bothOpenSt).wavWritten.get Party.A
        = Orch.bothOpenSt.wavWritten.get Party.A ++ [[1, 2], [3]]
      ∧ (Orch.runMsgs ([[1, 2], [3]].map fun c => (Party.A, some (Msg.audioPayload c)))
          Orch.bothOpenSt).sentIn.get Party.A.opp
        = Orch.bothOpenSt.sentIn.get Party.A.opp ++ [[1, 2], [3]]
      ∧ (Orch.runMsgs ([[1, 2], [3]].map fun c => (Party.A, some (Msg.audioPayload c)))
          Orch.bothOpenSt).sentIn.get Party.A
        = Orch.bothOpenSt.sentIn.get Party.A) :=
  ⟨rfl, audio_recorded_and_forwarded_once Party.A [[1, 2], [3]] Orch.bothOpenSt rfl⟩

/-- C5.  Finalizing a party with zero recorded events writes no bytes (the
WAV writer is still ended normally, yielding a valid header-only artifact)
and the build procedure is total — it cannot fail. -/
theorem finalize_empty_is_valid : Rec.build [] = [] := rfl

/-- C7.  An inbound raw frame on which `JSON.parse` throws makes the
dispatcher emit exactly one `'error'` event and leave everything else
untouched, in both `orchestrator.js` and the queued variant `part_002`:
session openness, session ids, writers, recorded chunks, forwarded audio,
the other party's forwarding queue and the log stream are all unchanged. -/
theorem malformed_message_only_errors (x : Party) (st : Orch.St) (st2 : Q.St) :
    (Orch.handleMessage x none st).errors = st.errors + 1
    ∧ (Orch.handleMessage x none st).sessionsOpen = st.sessionsOpen
    ∧ (Orch.handleMessage x none st).sessionIds = st.sessionIds
    ∧ (Orch.handleMessage x none st).hasWriter = st.hasWriter
    ∧ (Orch.handleMessage x none st).wavWritten = st.wavWritten
    ∧ (Orch.handleMessage x none st).sentIn = st.sentIn
    ∧ (Orch.handleMessage x none st).logs = st.logs
    ∧ (Q.dispatch x none st2).errors = st2.errors + 1
    ∧ (Q.dispatch x none st2).sessionsOpen = st2.sessionsOpen
    ∧ (Q.dispatch x none st2).sessionIds = st2.sessionIds
    ∧ (Q.dispatch x none st2).wavWritten = st2.wavWritten
    ∧ (Q.dispatch x none st2).queue.get x.opp = st2.queue.get x.opp
    ∧ (Q.dispatch x none st2).logs = st2.logs := by
  simp [Orch.handleMessage, Q.dispatch]

/-- C6 (amended).  `start()` performs no already-active check: from any
state whatsoever — in particular one with a conversation already running —
it proceeds, overwrites both stored session ids with the new sessions' ids,
re-creates both writers and session handles, sends the seed into A, and
emits no error. -/
theorem start_has_no_active_guard (st : Orch.St) (sidA sidB : String) (seed : Bytes) :
    (Orch.start st sidA sidB seed).sessionIds.get Party.A = some sidA
    ∧ (Orch.start st sidA sidB seed).sessionIds.get Party.B = some sidB
    ∧ (Orch.start st sidA sidB seed).sentIn.get Party.A = st.sentIn.get Party.A ++ [seed]
    ∧ (Orch.start st sidA sidB seed).errors = st.errors := by
  simp [Orch.start, Orch.handleMessage, Orch.sendAudio, PMap.get, PMap.set]

/-- A state in which a conversation is already running: both sessions OPEN
with assigned ids, as left by a completed `start()` from the initial
state. -/
def Orch.runningSt : Orch.St :=
  Orch.start Orch.initialSt "sess-first-A" "sess-first-B" [9, 9]

/-- Counterexample to C6 as stated: calling `start()` with a conversation
already running does not fail (no error is emitted — the code defines no
`AlreadyActive` error at all) and does not leave the existing conversation's
state unchanged: the stored session identifier of party A is overwritten. -/
theorem start_while_active_not_rejected :
    (Orch.start Orch.runningSt "sess-second-A" "sess-second-B" [9, 9]).errors
        = Orch.runningSt.errors
    ∧ (Orch.start Orch.runningSt "sess-second-A" "sess-second-B" [9, 9]).sessionIds.get Party.A
        ≠ Orch.runningSt.sessionIds.get Party.A := by
  constructor
  · rfl
  · decide

/-- C9.  `initOrchestrator()` is idempotent: with the module slot empty it
throws exactly when `OPENAI_API_KEY` is unset (JS-falsy), otherwise
constructs the single `ArenaOrchestrator` and stores it; with the slot
filled it returns the stored instance unchanged, constructing nothing,
whatever the environment now holds. -/
theorem initOrchestrator_singleton (env env2 : Option String) :
    (Orch.threw (Orch.initOrchestrator env none) = true ↔ Orch.keyTruthy env = false)
    ∧ (∀ k : String, Orch.keyTruthy (some k) = true →
        Orch.initOrchestrator (some k) none = .ok (Orch.mkArena k, some (Orch.mkArena k)))
    ∧ (∀ inst : Orch.Arena,
        Orch.initOrchestrator env2 (some inst) = .ok (inst, some inst)) := by
  refine ⟨?_, ?_, ?_⟩
  · cases env with
    | none => simp [Orch.initOrchestrator, Orch.threw, Orch.keyTruthy]
    | some s =>
      by_cases h : s.isEmpty <;>
        simp [Orch.initOrchestrator, Orch.threw, Orch.keyTruthy, h]
  · intro k hk
    simp only [Orch.keyTruthy, Bool.not_eq_true'] at hk
    simp [Orch.initOrchestrator, hk]
  · intro inst
    rfl

/-- C3.  In `part_002`'s per-destination forwarding queue, for every pair of
consecutive queued items `i` and `i+1`, item `i+1` is sent no earlier than
item `i`'s send time plus item `i`'s pacing delay
(`chunk.length / 48000 * 1000` ms): the promise chain resolves a link only
`pacingDelayMs` after its send, and the next link's callback runs no earlier
than that resolution. -/
theorem forwarding_queue_paced (items : List (ℚ × Nat)) (free : ℚ) (i : Nat)
    (h : i + 1 < items.length) :
    (Q.sched items free).getD i 0 + Q.pacingDelayMs (items.getD i (0, 0)).2
      ≤ (Q.sched items free).getD (i + 1) 0 := by
  induction items generalizing free i with
  | nil => simp at h
  | cons it rest ih =>
    cases i with
    | zero =>
      cases rest with
      | nil => simp at h
      | cons it2 rest2 =>
        simp only [Q.sched, List.getD_cons_zero, List.getD_cons_succ]
        exact le_max_right _ _
    | succ j =>
      have h' : j + 1 < rest.length := by
        simpa using h
      simpa only [Q.sched, List.getD_cons_succ] using
        ih (max it.1 free + Q.pacingDelayMs it.2) j h'

/-- Witness for C3: two 480-byte chunks enqueued at time 0; the second send
waits out the first chunk's 10 ms pacing delay. -/
theorem forwarding_queue_paced_witness :
    0 + 1 < ([((0 : ℚ), 480), ((0 : ℚ), 480)] : List (ℚ × Nat)).length
    ∧ (Q.sched [((0 : ℚ), 480), ((0 : ℚ), 480)] 0).getD 0 0
        + Q.pacingDelayMs (([((0 : ℚ), 480), ((0 : ℚ), 480)] : List (ℚ × Nat)).getD 0 (0, 0)).2
      ≤ (Q.sched [((0 : ℚ), 480), ((0 : ℚ), 480)] 0).getD (0 + 1) 0 :=
  ⟨by decide, forwarding_queue_paced [((0 : ℚ), 480), ((0 : ℚ), 480)] 0 0 (by decide)⟩

/-- One draft handler step preserves equality of the two solo tracks' byte
totals (the audio branch adds a chunk to one and same-length silence to the
other; no other branch writes to the solo writers). -/
theorem Draft.step_totals (x : Party) (m : Option Msg) (st : Draft.St)
    (h : Draft.totalBytes (st.solo.get Party.A) = Draft.totalBytes (st.solo.get Party.B)) :
    Draft.totalBytes ((Draft.dHandle x m st).solo.get Party.A)
      = Draft.totalBytes ((Draft.dHandle x m st).solo.get Party.B) := by
  match m with
  | none => simpa [Draft.dHandle] using h
  | some msg =>
    cases msg with
    | audioPayload c =>
      cases x <;>
        simp_all [Draft.dHandle, Draft.totalBytes, Party.opp, PMap.get, PMap.set,
          apply_ite Draft.St.solo]
    | sessionCreated sid =>
      cases x <;> simp_all [Draft.dHandle, PMap.get, PMap.set]
    | itemCreated b =>
      cases b <;> simpa [Draft.dHandle] using h
    | textDelta s =>
      cases x <;> simp_all [Draft.dHandle, PMap.get, PMap.set]
    | textDone s =>
      cases x <;> simp_all [Draft.dHandle, PMap.get, PMap.set]
    | otherType ty => simpa [Draft.dHandle] using h

/-- C10.  In the draft variants (`part_000` / `part_001`): every audio
payload handled for party `x` writes a zero-filled buffer of exactly the
chunk's byte length to the other party's solo track, and consequently after
any trace of handled messages party A's and party B's solo tracks have
received equal total byte counts. -/
theorem draft_solo_tracks_balanced :
    (∀ (x : Party) (c : Bytes) (st : Draft.St),
      (Draft.dHandle x (some (Msg.audioPayload c)) st).solo.get x.opp
        = st.solo.get x.opp ++ [List.replicate c.length 0])
    ∧ (∀ evs : List (Party × Option Msg),
      Draft.totalBytes ((Draft.dRun evs Draft.initSt).solo.get Party.A)
        = Draft.totalBytes ((Draft.dRun evs Draft.initSt).solo.get Party.B)) := by
  constructor
  · intro x c st
    cases x <;>
      simp [Draft.dHandle, Party.opp, PMap.get, PMap.set, apply_ite Draft.St.solo]
  · intro evs
    suffices hgen : ∀ (evs : List (Party × Option Msg)) (st : Draft.St),
        Draft.totalBytes (st.solo.get Party.A) = Draft.totalBytes (st.solo.get Party.B) →
        Draft.totalBytes ((Draft.dRun evs st).solo.get Party.A)
          = Draft.totalBytes ((Draft.dRun evs st).solo.get Party.B) by
      exact hgen evs Draft.initSt rfl
    intro evs
    induction evs with
    | nil => intro st h; simpa [Draft.dRun] using h
    | cons e rest ih =>
      intro st h
      simpa only [Draft.dRun, List.foldl_cons] using
        ih (Draft.dHandle e.1 e.2 st) (Draft.step_totals e.1 e.2 st h)

/-- Rounding an integer value with `Math.round` returns that integer. -/
theorem Rec.jsRound_intCast (n : Int) : Rec.jsRound (n : ℚ) = n := by
  have hq : ((n : ℚ) + 1 / 2) = 1 / 2 + (n : ℚ) := by ring
  rw [Rec.jsRound, hq, Int.floor_add_int]
  norm_num

/-- Evaluation: `bytesPerMs` is 48 bytes of PCM16 mono per millisecond. -/
theorem Rec.bytesPerMs_eq : Rec.bytesPerMs = 48 := by
  norm_num [Rec.bytesPerMs, Rec.sampleRate, Rec.bitDepth]

/-- C2.  The finalize walk: for every event whose offset exceeds the write
cursor it emits silence of exactly the gap's duration (`gap * bytesPerMs`
bytes, rounded) before the event's audio and then advances the cursor past
the audio's duration; in particular two 100 ms chunks at offsets 0 and
150 ms come out separated by exactly 50 ms (2400 bytes) of silence. -/
theorem finalize_gap_silence (d1 d2 : Bytes)
    (h1 : d1.length = 4800) (h2 : d2.length = 4800) :
    (∀ (e : Rec.Ev) (es : List Rec.Ev) (cursor : ℚ), cursor < (e.t : ℚ) →
      Rec.buildWalk (e :: es) cursor
        = Rec.silence (Rec.jsRound (((e.t : ℚ) - cursor) * Rec.bytesPerMs)).toNat
            ++ e.data ++ Rec.buildWalk es ((e.t : ℚ) + (e.data.length : ℚ) / Rec.bytesPerMs))
    ∧ Rec.build [⟨0, d1⟩, ⟨150, d2⟩] = d1 ++ Rec.silence 2400 ++ d2
    ∧ (2400 : ℚ) / Rec.bytesPerMs = 50 := by
  refine ⟨?_, ?_, by rw [Rec.bytesPerMs_eq]; norm_num⟩
  · intro e es cursor hc
    rw [Rec.buildWalk, if_pos (by linarith : (0 : ℚ) < (e.t : ℚ) - cursor)]
  · have hsort : Rec.sortEvents [⟨0, d1⟩, ⟨150, d2⟩] = [⟨0, d1⟩, ⟨150, d2⟩] := by
      simp [Rec.sortEvents, Rec.insertEv]
    have hr : (Rec.jsRound 2400).toNat = 2400 := by
      have h : Rec.jsRound 2400 = 2400 := by norm_num [Rec.jsRound]
      rw [h]; rfl
    rw [Rec.build, hsort]
    simp only [Rec.buildWalk]
    rw [Rec.bytesPerMs_eq, h1]
    norm_num
    rw [hr]

/-- Witness for C2: two concrete 4800-byte (100 ms) chunks. -/
theorem finalize_gap_silence_witness :
    (List.replicate 4800 (1 : Nat)).length = 4800
    ∧ Rec.build [⟨0, List.replicate 4800 1⟩, ⟨150, List.replicate 4800 2⟩]
        = List.replicate 4800 1 ++ Rec.silence 2400 ++ List.replicate 4800 2 :=
  ⟨by rw [List.length_replicate],
    (finalize_gap_silence (List.replicate 4800 1) (List.replicate 4800 2)
      (by rw [List.length_replicate]) (by rw [List.length_replicate])).2.1⟩

/-- C4.  The merged conversation track combines both parties' event lists
into one sequence sorted chronologically by offset and applies the same
gap-filling walk: merging A's `[(0, a0)]` with B's `[(50, b0)]` yields the
ordered track `[(0, a0), (50, b0)]`, and (for a 1 ms chunk `a0`) the built
merged output is `a0`, then the 49 ms gap as silence, then `b0`. -/
theorem merged_track_ordered (a0 b0 : Bytes) (ha : a0.length = 48) :
    Rec.mergedEvents [⟨0, a0⟩] [⟨50, b0⟩] = [⟨0, a0⟩, ⟨50, b0⟩]
    ∧ Rec.build ([⟨0, a0⟩] ++ [⟨50, b0⟩]) = a0 ++ Rec.silence 2352 ++ b0
    ∧ (2352 : ℚ) / Rec.bytesPerMs = 49 := by
  have hsort : Rec.sortEvents ([⟨0, a0⟩] ++ [⟨50, b0⟩]) = [⟨0, a0⟩, ⟨50, b0⟩] := by
    simp [Rec.sortEvents, Rec.insertEv]
  refine ⟨hsort, ?_, by rw [Rec.bytesPerMs_eq]; norm_num⟩
  have hr : (Rec.jsRound 2352).toNat = 2352 := by
    have h : Rec.jsRound 2352 = 2352 := by norm_num [Rec.jsRound]
    rw [h]; rfl
  rw [Rec.build, hsort]
  simp only [Rec.buildWalk]
  rw [Rec.bytesPerMs_eq, ha]
  norm_num
  rw [hr]

/-- Witness for C4: a concrete 48-byte (1 ms) chunk for A. -/
theorem merged_track_ordered_witness :
    (List.replicate 48 (5 : Nat)).length = 48
    ∧ Rec.mergedEvents [⟨0, List.replicate 48 5⟩] [⟨50, [7]⟩]
        = [⟨0, List.replicate 48 5⟩, ⟨50, [7]⟩] :=
  ⟨by rw [List.length_replicate],
    (merged_track_ordered (List.replicate 48 5) [7] (by rw [List.length_replicate])).1⟩

/-- Unfolding lemma for the seed framing loop on a nonempty buffer. -/
theorem Rec.seedFrames_cons (b : Bytes) (h : b ≠ []) :
    Rec.seedFrames b = b.take Rec.frameSize :: Rec.seedFrames (b.drop Rec.frameSize) := by
  rw [Rec.seedFrames]
  simp [h]

/-- The framing loop yields no frames exactly on the empty buffer. -/
theorem Rec.seedFrames_eq_nil (b : Bytes) : Rec.seedFrames b = [] ↔ b = [] := by
  constructor
  · intro h
    by_contra hb
    rw [Rec.seedFrames_cons b hb] at h
    exact List.cons_ne_nil _ _ h
  · intro h
    subst h
    simp [Rec.seedFrames]

/-- Consecutive `_streamTo` sends are exactly 20 ms apart. -/
theorem Rec.streamSched_space (l : List Bytes) : ∀ (now : ℚ) (i : Nat),
    i + 1 < l.length →
    (Rec.streamSched l now).getD (i + 1) 0 = (Rec.streamSched l now).getD i 0 + 20 := by
  induction l with
  | nil =>
    intro now i hi
    simp at hi
  | cons x rest ih =>
    intro now i hi
    cases i with
    | zero =>
      cases rest with
      | nil => simp at hi
      | cons y r2 => simp [Rec.streamSched]
    | succ j =>
      simp only [Rec.streamSched, List.getD_cons_succ]
      exact ih (now + 20) j (by simpa using hi)

/-- C8.  Bulk seed streaming splits the buffer into consecutive fixed-size
frames whose concatenation, in send order, is exactly the source buffer;
every frame but the last holds exactly `frameSize = 960` bytes — 20 ms of
audio at the configured 24 kHz PCM16 mono session format — and consecutive
frame sends are separated by a 20 ms wall-clock wait. -/
theorem seed_framing_20ms (b : Bytes) :
    (Rec.seedFrames b).flatten = b
    ∧ (∀ f ∈ Rec.seedFrames b, f.length ≤ Rec.frameSize)
    ∧ (∀ i : Nat, i + 1 < (Rec.seedFrames b).length →
        ((Rec.seedFrames b).getD i []).length = Rec.frameSize)
    ∧ ((Rec.frameSize : ℚ) = 24000 * ((16 : ℚ) / 8) * ((20 : ℚ) / 1000))
    ∧ (∀ (now : ℚ) (i : Nat), i + 1 < (Rec.seedFrames b).length →
        (Rec.streamSched (Rec.seedFrames b) now).getD (i + 1) 0
          = (Rec.streamSched (Rec.seedFrames b) now).getD i 0 + 20) := by
  refine ⟨?_, ?_, ?_, by norm_num [Rec.frameSize], ?_⟩
  · induction b using Rec.seedFrames.induct with
    | case1 => simp [Rec.seedFrames]
    | case2 b h ih =>
      rw [Rec.seedFrames_cons b h]
      simp [ih]
  · induction b using Rec.seedFrames.induct with
    | case1 => simp [Rec.seedFrames]
    | case2 b h ih =>
      rw [Rec.seedFrames_cons b h]
      intro f hf
      rcases List.mem_cons.mp hf with hf | hf
      · subst hf
        simpa using min_le_left Rec.frameSize b.length
      · exact ih f hf
  · induction b using Rec.seedFrames.induct with
    | case1 => simp [Rec.seedFrames]
    | case2 b h ih =>
      intro i hi
      rw [Rec.seedFrames_cons b h] at hi ⊢
      cases i with
      | zero =>
        simp only [List.getD_cons_zero, List.length_take]
        simp only [List.length_cons] at hi
        have hne : Rec.seedFrames (b.drop Rec.frameSize) ≠ [] := by
          intro hcon
          rw [hcon] at hi
          simp at hi
        have hdrop : b.drop Rec.frameSize ≠ [] :=
          fun hc => hne ((Rec.seedFrames_eq_nil _).mpr hc)
        have hlen : Rec.frameSize < b.length := by
          by_contra hle
          exact hdrop (List.drop_eq_nil_of_le (Nat.le_of_not_lt hle))
        omega
      | succ j =>
        simp only [List.getD_cons_succ, List.length_cons] at hi ⊢
        exact ih j (by omega)
  · intro now i hi
    exact Rec.streamSched_space (Rec.seedFrames b) now i hi

/-- The frames of a concrete 1920-byte (two-frame) seed buffer. -/
theorem Rec.seedFrames_two : Rec.seedFrames (List.replicate 1920 3)
    = [List.replicate 960 3, List.replicate 960 3] := by
  have h1 : (List.replicate 1920 (3 : Nat)) ≠ [] := by
    intro hc
    have hl : (List.replicate 1920 (3 : Nat)).length = 1920 := List.length_replicate _ _
    rw [hc] at hl
    simp at hl
  rw [Rec.seedFrames_cons _ h1]
  rw [List.take_replicate, List.drop_replicate]
  have h2 : (List.replicate (1920 - Rec.frameSize) (3 : Nat)) = List.replicate 960 3 := by
    norm_num [Rec.frameSize]
  rw [h2]
  have h3 : (List.replicate 960 (3 : Nat)) ≠ [] := by
    intro hc
    have hl : (List.replicate 960 (3 : Nat)).length = 960 := List.length_replicate _ _
    rw [hc] at hl
    simp at hl
  rw [Rec.seedFrames_cons _ h3]
  rw [List.take_replicate, List.drop_replicate]
  have h4 : min Rec.frameSize 1920 = 960 := by norm_num [Rec.frameSize]
  have h5 : min Rec.frameSize 960 = 960 := by norm_num [Rec.frameSize]
  have h6 : (List.replicate (960 - Rec.frameSize) (3 : Nat)) = [] := by
    norm_num [Rec.frameSize]
  rw [h4, h5, h6]
  rw [(Rec.seedFrames_eq_nil []).mpr rfl]

/-- Witness for C8: a concrete two-frame seed buffer; the first frame is a
full 960-byte frame and the frames reassemble the buffer. -/
theorem seed_framing_20ms_witness :
    0 + 1 < (Rec.seedFrames (List.replicate 1920 3)).length
    ∧ ((Rec.seedFrames (List.replicate 1920 3)).getD 0 []).length = Rec.frameSize
    ∧ (Rec.seedFrames (List.replicate 1920 3)).flatten = List.replicate 1920 3 := by
  refine ⟨?_, ?_, (seed_framing_20ms (List.replicate 1920 3)).1⟩
  · rw [Rec.seedFrames_two]
    norm_num
  · exact (seed_framing_20ms (List.replicate 1920 3)).2.2.1 0
      (by rw [Rec.seedFrames_two]; norm_num)

/-- Witness for C9: a concrete key and a concrete stored instance. -/
theorem initOrchestrator_singleton_witness :
    Orch.keyTruthy (some "sk-test") = true
    ∧ Orch.initOrchestrator (some "sk-test") none
        = .ok (Orch.mkArena "sk-test", some (Orch.mkArena "sk-test"))
    ∧ Orch.initOrchestrator none (some (Orch.mkArena "sk-test"))
        = .ok (Orch.mkArena "sk-test", some (Orch.mkArena "sk-test")) :=
  ⟨rfl,
    (initOrchestrator_singleton (some "sk-test") none).2.1 "sk-test" rfl,
    (initOrchestrator_singleton (some "sk-test") none).2.2 (Orch.mkArena "sk-test")⟩

end StreamConsole
